import Mathlib

/-!
Verification of the FuzzStorm utilities: a coverage-over-time plotter
(`plot_coverage_fast.py`) and a seed deriver (`seed.py`).

The Python sources are embedded shallowly:

* filenames and text are Lean `String`s; Python `float` seconds are modelled
  as exact rationals `ℚ` (`ms / 1000` is exact rational division);
* a directory is a `List String` of entry names (present) or `none` (absent);
* Python's stable `sort`/`sorted` is modelled by `List.mergeSort`, which is
  stable;
* external subprocesses (`llvm-profdata merge`, `llvm-cov report`, the
  encoder binary) are opaque: they enter the model as function parameters
  producing their observable output, and the sampler additionally returns
  the list of merge invocations it performs so that "which external calls
  happened" is part of the model;
* fallible operations return `Except`/`Option`.
-/

/-! ### Python string primitives

The Lean core `String` functions (`trim`, `splitOn`, `startsWith`, ...) are
implemented on byte positions and do not reduce in the kernel, so the Python
string operations the scripts use are embedded structurally over the
character list of the string. -/

/-- Character-list test that `p` starts the list `s` (Python
`str.startswith`). -/
def chStartsWith : List Char → List Char → Bool
  | _, [] => true
  | [], _ :: _ => false
  | c :: cs, p :: ps => c == p && chStartsWith cs ps

/-- Python `s.startswith(p)`. -/
def pyStartsWith (s p : String) : Bool := chStartsWith s.toList p.toList

/-- Python `str.strip()`: drop whitespace from both ends. -/
def pyStrip (s : String) : String :=
  ((s.toList.dropWhile Char.isWhitespace).reverse.dropWhile
    Char.isWhitespace).reverse.asString

/-- Split a character list at every newline; the empty list yields one empty
field, as Python `str.split('\n')` yields `['']`. -/
def splitNl : List Char → List (List Char)
  | [] => [[]]
  | c :: cs =>
    if c == '\n' then [] :: splitNl cs
    else
      match splitNl cs with
      | [] => [[c]]
      | h :: t => (c :: h) :: t

/-- Python `s.split('\n')`. -/
def pySplitNl (s : String) : List String := (splitNl s.toList).map List.asString

/-- Whitespace-run splitter: maximal non-whitespace chunks, no empty
fields; `acc` holds the current chunk reversed. -/
def wsChunks : List Char → List Char → List (List Char)
  | [], acc => if acc.isEmpty then [] else [acc.reverse]
  | c :: cs, acc =>
    if c.isWhitespace then
      if acc.isEmpty then wsChunks cs [] else acc.reverse :: wsChunks cs []
    else wsChunks cs (c :: acc)

/-- Python `str.split()` with no separator: split on whitespace runs,
discarding empty fields. -/
def pySplitWs (s : String) : List String :=
  (wsChunks s.toList []).map List.asString

/-! ### Queue scanner (`parse_queue_files`) -/

/-- Value of a run of decimal digits, as Python `int` reads it. -/
def digitsToNat (ds : List Char) : Nat :=
  ds.foldl (fun a c => a * 10 + (c.toNat - 48)) 0

/-- Longest prefix of decimal digits, the greedy capture of `(\d+)`. -/
def takeDigits : List Char → List Char
  | [] => []
  | c :: cs => if c.isDigit then c :: takeDigits cs else []

/-- `re.search(r'time:(\d+)', s)` followed by `int(group(1))`: scan for the
leftmost occurrence of the literal `time:` followed by at least one digit and
return the value of the maximal digit run after the colon. -/
def searchTime : List Char → Option Nat
  | [] => none
  | c :: cs =>
    match c, cs with
    | 't', 'i' :: 'm' :: 'e' :: ':' :: rest =>
      let ds := takeDigits rest
      if ds.isEmpty then searchTime cs else some (digitsToNat ds)
    | _, _ => searchTime cs

/-- `parse_queue_files` from `plot_coverage_fast.py`. The directory is
`none` when it does not exist (Python raises `FileNotFoundError`, modelled
as `Except.error`), otherwise the list of its entry names.  The body:
glob `id:*` in sorted name order, keep entries whose name carries a
`time:<ms>` token as `(ms / 1000, name)`, then stable-sort by the time. -/
def parse_queue_files (queue_dir : String) (entries : Option (List String)) :
    Except String (List (ℚ × String)) :=
  match entries with
  | none => Except.error ("Queue directory not found: " ++ queue_dir)
  | some names =>
    let globbed := (names.filter (fun n => pyStartsWith n "id:")).mergeSort
      (fun a b => decide (a ≤ b))
    let queue_files := globbed.filterMap (fun n =>
      (searchTime n.toList).map (fun ms : Nat => ((ms : ℚ) / 1000, n)))
    Except.ok (queue_files.mergeSort (fun a b => decide (a.1 ≤ b.1)))

/-! ### Coverage report parsing (`parse_coverage_report`) -/

/-- Python `int(s)` on a whitespace-free field: optional sign followed by at
least one digit (digit-group underscores are not modelled; no claim touches
them). -/
def pyToInt (s : String) : Option Int :=
  match s.toList with
  | '-' :: ds =>
    if ds ≠ [] ∧ ds.all Char.isDigit then some (-(digitsToNat ds : Int)) else none
  | '+' :: ds =>
    if ds ≠ [] ∧ ds.all Char.isDigit then some ((digitsToNat ds : Int)) else none
  | ds =>
    if ds ≠ [] ∧ ds.all Char.isDigit then some ((digitsToNat ds : Int)) else none

/-- The reverse scan of `parse_coverage_report`: for each line, if it starts
with `TOTAL`, split on whitespace; with at least 13 fields try to read fields
10 and 11 as integers and return `(total - missed, total)`; on any failure
fall through to the next line (the `except ... pass` continues the loop). -/
def reportScan : List String → Int × Int
  | [] => (0, 0)
  | line :: rest =>
    if pyStartsWith line "TOTAL" then
      let parts := pySplitWs line
      if parts.length ≥ 13 then
        match pyToInt (parts.getD 10 ""), pyToInt (parts.getD 11 "") with
        | some branches_total, some branches_missed =>
          (branches_total - branches_missed, branches_total)
        | _, _ => reportScan rest
      else reportScan rest
    else reportScan rest

/-- `parse_coverage_report` from `plot_coverage_fast.py`:
`report_text.strip().split('\n')` scanned in reverse. -/
def parse_coverage_report (report_text : String) : Int × Int :=
  reportScan (pySplitNl (pyStrip report_text)).reverse

/-- Specification-side single-line parse: `some (total - missed, total)` when
the line starts with `TOTAL`, has at least 13 whitespace fields and fields 10
and 11 are integers; `none` otherwise.  Used to characterise `reportScan`. -/
def parseTotalLine (line : String) : Option (Int × Int) :=
  if pyStartsWith line "TOTAL" then
    let parts := pySplitWs line
    if parts.length ≥ 13 then
      match pyToInt (parts.getD 10 ""), pyToInt (parts.getD 11 "") with
      | some branches_total, some branches_missed =>
        some (branches_total - branches_missed, branches_total)
      | _, _ => none
    else none
  else none

/-! ### Cumulative coverage sampler (`get_cumulative_coverage`) -/

/-- The checkpoint (sample point) selection of `get_cumulative_coverage`
for `n` coverage profiles:
`sample_points = [0, 10, 20, 50, 100, 200, 500, 1000, n-1]` filtered to
indices `< n`, appending `n-1` when it is not already present. -/
def samplePoints (n : Nat) : List Nat :=
  let sp := ([0, 10, 20, 50, 100, 200, 500, 1000, n - 1] : List Nat).filter
    (fun i => i < n)
  if (n - 1) ∈ sp then sp else sp ++ [n - 1]

/-- `if adjusted_time < 1: adjusted_time = 1`. -/
def clampTime (t : ℚ) : ℚ := if t < 1 then 1 else t

/-- `get_cumulative_coverage` from `plot_coverage_fast.py`.

`P` is the type of coverage-profile files.  The external
`llvm-profdata merge` / `llvm-cov report` pipeline is opaque to the script:
it is modelled by `report`, mapping the list of profiles merged at a
checkpoint to the textual summary printed by `llvm-cov report`, which the
script then parses with `parse_coverage_report`.  The first component is the
returned `results` list of `(adjusted_time, branches_covered,
branches_total)`; the second component is the trace of merge invocations
(one per checkpoint, each with the profile files handed to the merge tool),
so that an empty trace means neither external tool was invoked.
`queue_files[sample_idx]` is modelled with a default for the out-of-range
case (Python would raise; the theorems assume the in-range use of `main`,
where one profile exists per queue file). -/
def get_cumulative_coverage {P : Type} (report : List P → String)
    (profraw_files : List P) (queue_files : List (ℚ × String))
    (time_shift : ℚ) : List (ℚ × Int × Int) × List (List P) :=
  if profraw_files.isEmpty then ([], [])
  else
    ((samplePoints profraw_files.length).map (fun sample_idx =>
      let bc := parse_coverage_report (report (profraw_files.take (sample_idx + 1)))
      (clampTime ((queue_files.getD sample_idx (0, "")).1 + time_shift),
        bc.1, bc.2)),
     (samplePoints profraw_files.length).map (fun sample_idx =>
      profraw_files.take (sample_idx + 1)))

/-! ### Seed deriver (`seed.py`) -/

/-- Observable outcome of one encoder subprocess run: exit code, decoded
standard output and decoded standard error. -/
structure ProcResult where
  returncode : Int
  stdout : String
  stderr : String

/-- Python `str.splitlines()` restricted to `\n` separators (the only ones
the claims exercise): split on `\n` and drop the trailing empty field that a
terminating newline produces, so `""` gives `[]`. -/
def pySplitlines (s : String) : List String :=
  let parts := pySplitNl s
  if parts.getLast? = some "" then parts.dropLast else parts

/-- `run_encoder` from `seed.py`, applied to the observable result of the
encoder subprocess.  Returns the outputs (stdout split into lines) together
with the lines written to the script's standard error: on a non-zero exit
code a `[WARN]` line, followed by the encoder's stderr text when non-empty,
and no outputs. -/
def run_encoder (proc : ProcResult) : List String × List String :=
  if proc.returncode ≠ 0 then
    ([], ("[WARN] encoder failed (code " ++ toString proc.returncode ++ ")\n")
      :: (if proc.stderr ≠ "" then [proc.stderr] else []))
  else (pySplitlines proc.stdout, [])

/-- One entry of the queue directory: its name, whether `Path.is_file()`
holds, and its raw bytes. -/
structure DirEntry where
  name : String
  regular : Bool
  bytes : List Nat

/-- The mutable state of `main` in `seed.py`: the two counters, the output
files written so far (sanitized name and content, in write order) and the
warning lines emitted so far. -/
structure SeedState where
  total_written : Nat
  file_written : Nat
  outFiles : List (String × String)
  warnings : List String

/-- Initial state of the `main` loop. -/
def initState : SeedState := ⟨0, 0, [], []⟩

/-- `path.name.replace(":", "_")`. -/
def sanitize (s : String) : String := s.replace ":" "_"

/-- One iteration of the `main` loop of `seed.py` over a directory entry:
skip non-files; run the encoder on the file's bytes; record its warnings;
if it produced no output lines, continue; otherwise write the
newline-joined lines (with trailing newline) under the sanitized name and
bump both counters. -/
def processEntry (encoder : List Nat → ProcResult) (st : SeedState)
    (e : DirEntry) : SeedState :=
  if !e.regular then st
  else
    let res := run_encoder (encoder e.bytes)
    let st1 : SeedState := { st with warnings := st.warnings ++ res.2 }
    if res.1.isEmpty then st1
    else
      { st1 with
        outFiles := st1.outFiles ++
          [(sanitize e.name, String.intercalate "\n" res.1 ++ "\n")],
        total_written := st1.total_written + res.1.length,
        file_written := st1.file_written + 1 }

/-- The `main` loop of `seed.py`: fold `processEntry` over the directory
entries in sorted name order. -/
def seedMain (encoder : List Nat → ProcResult) (entries : List DirEntry) :
    SeedState :=
  (entries.mergeSort (fun a b => decide (a.name ≤ b.name))).foldl
    (processEntry encoder) initState

/-! ### Helper lemmas on checkpoint selection -/

/-- For a non-empty profile list, the checkpoint list is the fixed points
below `n` followed by the final index. -/
theorem samplePoints_eq (n : Nat) (h : 1 ≤ n) :
    samplePoints n =
      (([0, 10, 20, 50, 100, 200, 500, 1000] : List Nat).filter
        (fun i => i < n)) ++ [n - 1] := by
  have hlt : n - 1 < n := Nat.sub_lt h Nat.one_pos
  unfold samplePoints
  have hbase : ([0, 10, 20, 50, 100, 200, 500, 1000, n - 1] : List Nat)
      = [0, 10, 20, 50, 100, 200, 500, 1000] ++ [n - 1] := rfl
  rw [hbase, List.filter_append]
  have hsing : ([n - 1] : List Nat).filter (fun i => i < n) = [n - 1] := by
    simp [List.filter, hlt]
  rw [hsing]
  have hmem : (n - 1) ∈
      (([0, 10, 20, 50, 100, 200, 500, 1000] : List Nat).filter
        (fun i => i < n)) ++ [n - 1] := by simp
  simp [hmem]

theorem samplePoints_pairwise_le (n : Nat) (h : 1 ≤ n) :
    (samplePoints n).Pairwise (· ≤ ·) := by
  rw [samplePoints_eq n h]
  apply List.pairwise_append.mpr
  refine ⟨?_, by simp, ?_⟩
  · exact (List.Pairwise.sublist (List.filter_sublist _)
      (by decide : ([0,10,20,50,100,200,500,1000] : List Nat).Pairwise (· < ·))).imp
      le_of_lt
  · intro x hx y hy
    simp only [List.mem_filter, decide_eq_true_eq] at hx
    simp only [List.mem_singleton] at hy
    subst hy
    omega

theorem samplePoints_mem_lt (n : Nat) (h : 1 ≤ n) :
    ∀ x ∈ samplePoints n, x < n := by
  rw [samplePoints_eq n h]
  intro x hx
  rcases List.mem_append.mp hx with hx | hx
  · simpa using (List.mem_filter.mp hx).2
  · simp only [List.mem_singleton] at hx
    omega

theorem samplePoints_pairwise_lt (n : Nat) (h : 1 ≤ n)
    (hout : (n - 1) ∉ ([0, 10, 20, 50, 100, 200, 500, 1000] : List Nat)) :
    (samplePoints n).Pairwise (· < ·) := by
  rw [samplePoints_eq n h]
  apply List.pairwise_append.mpr
  refine ⟨?_, by simp, ?_⟩
  · exact List.Pairwise.sublist (List.filter_sublist _)
      (by decide : ([0,10,20,50,100,200,500,1000] : List Nat).Pairwise (· < ·))
  · intro x hx y hy
    simp only [List.mem_filter, decide_eq_true_eq] at hx
    simp only [List.mem_singleton] at hy
    subst hy
    have hne : x ≠ n - 1 := fun hxe => hout (hxe ▸ hx.1)
    omega

theorem samplePoints_count_two (n : Nat) (h : 1 ≤ n)
    (hin : (n - 1) ∈ ([0, 10, 20, 50, 100, 200, 500, 1000] : List Nat)) :
    (samplePoints n).count (n - 1) = 2 := by
  rw [samplePoints_eq n h, List.count_append]
  have h1 : (([0, 10, 20, 50, 100, 200, 500, 1000] : List Nat).filter
      (fun i => i < n)).count (n - 1) = 1 := by
    apply List.count_eq_one_of_mem
    · exact List.Nodup.filter _ (by decide)
    · exact List.mem_filter.mpr ⟨hin, by simp only [decide_eq_true_eq]; omega⟩
  rw [h1]
  simp

theorem zero_mem_samplePoints (n : Nat) (h : 1 ≤ n) : 0 ∈ samplePoints n := by
  rw [samplePoints_eq n h]
  exact List.mem_append_left _
    (List.mem_filter.mpr ⟨by simp, by simp only [decide_eq_true_eq]; omega⟩)

theorem last_mem_samplePoints (n : Nat) (h : 1 ≤ n) :
    (n - 1) ∈ samplePoints n := by
  rw [samplePoints_eq n h]
  exact List.mem_append_right _ (by simp)

/-! ### Claim C1 -/

/-- C1 counterexample: for a run with exactly one coverage profile the
checkpoint list computed by the sampler is `[0, 0]`; it contains a duplicate
index and is not strictly ascending, contradicting the claim as stated.
(The same happens for 11, 21, 51, 101, 201, 501 or 1001 profiles, where the
final index coincides with one of the fixed sample points.) -/
theorem checkpoints_duplicate_one_profile :
    samplePoints 1 = [0, 0] ∧ ¬ (samplePoints 1).Nodup ∧
      ¬ (samplePoints 1).Pairwise (· < ·) := by decide

/-- C1 (amended): for every non-empty profile list the checkpoint list
includes index 0 and the final index `n - 1` and is sorted non-decreasing;
it has no duplicates and is strictly ascending whenever `n - 1` is not one
of the fixed sample values `{0,10,20,50,100,200,500,1000}`; when `n - 1` is
one of them, it occurs twice. -/
theorem checkpoints_sound (n : Nat) (h : 1 ≤ n) :
    0 ∈ samplePoints n ∧ (n - 1) ∈ samplePoints n ∧
      (samplePoints n).Pairwise (· ≤ ·) ∧
      ((n - 1) ∉ ([0, 10, 20, 50, 100, 200, 500, 1000] : List Nat) →
        (samplePoints n).Nodup ∧ (samplePoints n).Pairwise (· < ·)) ∧
      ((n - 1) ∈ ([0, 10, 20, 50, 100, 200, 500, 1000] : List Nat) →
        (samplePoints n).count (n - 1) = 2) :=
  ⟨zero_mem_samplePoints n h, last_mem_samplePoints n h,
    samplePoints_pairwise_le n h,
    fun hout =>
      ⟨((samplePoints_pairwise_lt n h hout).imp (fun hlt => Nat.ne_of_lt hlt)),
        samplePoints_pairwise_lt n h hout⟩,
    samplePoints_count_two n h⟩

/-- C1 witness: the amended statement applied at 1500 profiles (strictly
ascending, duplicate-free) and at 1 profile (the final index 0 occurs
twice). -/
theorem checkpoints_sound_witness :
    (samplePoints 1500).Pairwise (· < ·) ∧ (samplePoints 1).count 0 = 2 :=
  ⟨((checkpoints_sound 1500 (by decide)).2.2.2.1 (by decide)).2,
    (checkpoints_sound 1 (by decide)).2.2.2.2 (by decide)⟩

/-! ### Claim C7 -/

/-- C7: the checkpoint list for a 1500-profile run is exactly
`[0,10,20,50,100,200,500,1000,1499]`, and for a 5-profile run it is
`[0, 4]`. -/
theorem checkpoints_concrete_examples :
    samplePoints 1500 = [0, 10, 20, 50, 100, 200, 500, 1000, 1499] ∧
      samplePoints 5 = [0, 4] := by decide

/-! ### Claim C10 -/

/-- C10: with no coverage profile files the sampler returns the empty
sample sequence and performs no external merge/report invocation (empty
merge trace). -/
theorem sampler_empty_no_calls (P : Type) (report : List P → String)
    (queue_files : List (ℚ × String)) (time_shift : ℚ) :
    get_cumulative_coverage report ([] : List P) queue_files time_shift
      = ([], []) := rfl

/-! ### Claim C5 -/

theorem reportScan_cons (line : String) (rest : List String) :
    reportScan (line :: rest) =
      match parseTotalLine line with
      | some r => r
      | none => reportScan rest := by
  simp only [reportScan, parseTotalLine]
  split
  · split
    · rcases h10 : pyToInt ((pySplitWs line).getD 10 "") with _ | t <;>
        rcases h11 : pyToInt ((pySplitWs line).getD 11 "") with _ | m <;>
        simp [h10, h11]
    · rfl
  · rfl

theorem reportScan_eq_filterMap (l : List String) :
    reportScan l = (l.filterMap parseTotalLine).headD (0, 0) := by
  induction l with
  | nil => rfl
  | cons line rest ih =>
    rw [reportScan_cons, List.filterMap_cons]
    cases h : parseTotalLine line with
    | none => simpa [h] using ih
    | some r => simp [h]

/-- C5 counterexample: in a report whose last line is a malformed `TOTAL`
line, the first `TOTAL`-prefixed line in the reverse scan is that malformed
line, its parse fails, and yet the result is not `(0, 0)`: the scan keeps
going and returns the values of the earlier well-formed `TOTAL` line. -/
theorem report_parse_skips_malformed_total :
    (((pySplitNl (pyStrip
      "TOTAL 0 0 0 0 0 0 0 0 0 40 10 0\nTOTAL junk")).reverse.find?
        (fun l => pyStartsWith l "TOTAL"))
        = some "TOTAL junk") ∧
    parseTotalLine "TOTAL junk" = none ∧
    parse_coverage_report "TOTAL 0 0 0 0 0 0 0 0 0 40 10 0\nTOTAL junk"
      = (30, 40) ∧
    ((30, 40) : Int × Int) ≠ (0, 0) := by decide

/-- C5 (amended): the parser scans the stripped report's lines in reverse
and returns `(total - missed, total)` from the first line in that order that
begins with `TOTAL` *and parses* (at least 13 whitespace-separated fields,
fields 10 and 11 integers); `TOTAL` lines that fail to parse are skipped and
the scan continues; if no line parses the result is `(0, 0)`; the parser is
total (never raises). -/
theorem report_parse_last_parsable_total (report_text : String) :
    parse_coverage_report report_text =
      (((pySplitNl (pyStrip report_text)).reverse.filterMap
        parseTotalLine).headD (0, 0)) :=
  reportScan_eq_filterMap _

/-! ### Claim C6 -/

/-- C6: every Coverage Sample the sampler records has adjusted elapsed time
at least 1, for every time shift (including large negative shifts), every
queue and every profile list. -/
theorem sampler_time_at_least_one {P : Type} (report : List P → String)
    (profraw_files : List P) (queue_files : List (ℚ × String))
    (time_shift : ℚ) (s : ℚ × Int × Int)
    (hs : s ∈ (get_cumulative_coverage report profraw_files queue_files
      time_shift).1) :
    1 ≤ s.1 := by
  unfold get_cumulative_coverage at hs
  split at hs
  · simp at hs
  · simp only [List.mem_map] at hs
    obtain ⟨idx, -, rfl⟩ := hs
    simp only [clampTime]
    split
    · exact le_refl 1
    · exact le_of_not_lt (by assumption)

/-- C6 witness: a one-profile run with time shift `-5` records a sample, and
the theorem applied to it bounds its clamped time below by 1. -/
theorem sampler_time_at_least_one_witness :
    ∃ s ∈ (get_cumulative_coverage (fun _ => "") ([0] : List Nat)
      ([] : List (ℚ × String)) (-5)).1, 1 ≤ s.1 := by
  have hmem : (((1 : ℚ), (0 : Int), (0 : Int)) : ℚ × Int × Int) ∈
      (get_cumulative_coverage (fun _ => "") ([0] : List Nat)
        ([] : List (ℚ × String)) (-5)).1 := by
    have hpc : parse_coverage_report "" = (0, 0) := by decide
    simp only [get_cumulative_coverage, samplePoints, clampTime, hpc]
    norm_num
  exact ⟨_, hmem, sampler_time_at_least_one _ _ _ _ _ hmem⟩

/-! ### Claim C8 -/

/-- C8: when the encoder exits non-zero on a corpus file, the loop step
leaves both counters and the set of written output files unchanged, appends
exactly the warning lines (the `[WARN]` line followed by the encoder's
stderr text when non-empty, so any diagnostic text is included), and the
fold continues with the remaining files from that state. -/
theorem seed_encoder_failure_skips (encoder : List Nat → ProcResult)
    (st : SeedState) (e : DirEntry) (rest : List DirEntry)
    (hf : e.regular = true) (hrc : (encoder e.bytes).returncode ≠ 0) :
    (processEntry encoder st e).total_written = st.total_written ∧
    (processEntry encoder st e).file_written = st.file_written ∧
    (processEntry encoder st e).outFiles = st.outFiles ∧
    (processEntry encoder st e).warnings = st.warnings ++
      (("[WARN] encoder failed (code " ++ toString (encoder e.bytes).returncode
        ++ ")\n") :: (if (encoder e.bytes).stderr ≠ ""
          then [(encoder e.bytes).stderr] else [])) ∧
    ((encoder e.bytes).stderr ≠ "" →
      (encoder e.bytes).stderr ∈ (processEntry encoder st e).warnings) ∧
    List.foldl (processEntry encoder) st (e :: rest)
      = List.foldl (processEntry encoder) (processEntry encoder st e) rest := by
  have hstep : processEntry encoder st e =
      { st with warnings := st.warnings ++
        (("[WARN] encoder failed (code "
            ++ toString (encoder e.bytes).returncode ++ ")\n")
          :: (if (encoder e.bytes).stderr ≠ ""
            then [(encoder e.bytes).stderr] else [])) } := by
    simp [processEntry, hf, run_encoder, hrc]
  refine ⟨by rw [hstep], by rw [hstep], by rw [hstep], by rw [hstep], ?_, rfl⟩
  intro hne
  rw [hstep]
  simp [hne]

/-- C8 witness: an encoder failing with code 1 and stderr `boom` on file
`id:000` leaves the counters at zero, writes nothing, emits the stderr text
among the warnings, and the loop over the singleton directory proceeds. -/
theorem seed_encoder_failure_skips_witness :
    (processEntry (fun _ => ⟨1, "", "boom"⟩) initState ⟨"id:000", true, [0]⟩).total_written = 0 ∧
    (processEntry (fun _ => ⟨1, "", "boom"⟩) initState ⟨"id:000", true, [0]⟩).file_written = 0 ∧
    (processEntry (fun _ => ⟨1, "", "boom"⟩) initState ⟨"id:000", true, [0]⟩).outFiles = [] ∧
    "boom" ∈ (processEntry (fun _ => ⟨1, "", "boom"⟩) initState ⟨"id:000", true, [0]⟩).warnings := by
  have h := seed_encoder_failure_skips (fun _ => ⟨1, "", "boom"⟩) initState
    ⟨"id:000", true, [0]⟩ [] rfl (by decide)
  exact ⟨h.1, h.2.1, h.2.2.1, h.2.2.2.2.1 (by decide)⟩

/-! ### Claim C9 -/

/-- C9: when the encoder exits with code 0 but empty standard output, the
loop step leaves the state entirely unchanged: no output file is written,
neither counter is incremented and no warning is emitted — at the output
indistinguishable from the failure case. -/
theorem seed_empty_output_skips (encoder : List Nat → ProcResult)
    (st : SeedState) (e : DirEntry) (hf : e.regular = true)
    (hrc : (encoder e.bytes).returncode = 0)
    (hout : (encoder e.bytes).stdout = "") :
    processEntry encoder st e = st := by
  have hsl : pySplitlines "" = [] := by decide
  cases st
  simp [processEntry, hf, run_encoder, hrc, hout, hsl]

/-- C9 witness: an encoder returning exit code 0 with empty stdout on file
`id:000` leaves the initial state unchanged. -/
theorem seed_empty_output_skips_witness :
    processEntry (fun _ => ⟨0, "", "noise"⟩) initState ⟨"id:000", true, [0]⟩
      = initState :=
  seed_empty_output_skips (fun _ => ⟨0, "", "noise"⟩) initState
    ⟨"id:000", true, [0]⟩ rfl rfl rfl

/-! ### Claim C2 -/

theorem pairwise_with_mem {α : Type} {l : List α} {R : α → α → Prop}
    {Q : α → Prop} (h : l.Pairwise R) (hq : ∀ x ∈ l, Q x) :
    l.Pairwise (fun a b => R a b ∧ Q a ∧ Q b) := by
  induction l with
  | nil => simp
  | cons x t ih =>
    rcases List.pairwise_cons.mp h with ⟨hx, ht⟩
    refine List.pairwise_cons.mpr
      ⟨?_, ih ht (fun y hy => hq y (List.mem_cons_of_mem _ hy))⟩
    intro y hy
    exact ⟨hx y hy, hq x (List.mem_cons_self _ _),
      hq y (List.mem_cons_of_mem _ hy)⟩

theorem clampTime_mono {a b : ℚ} (h : a ≤ b) : clampTime a ≤ clampTime b := by
  unfold clampTime
  split <;> split <;> linarith

theorem take_sublist_take {α : Type} (l : List α) {i j : Nat} (h : i ≤ j) :
    List.Sublist (l.take i) (l.take j) := by
  have he : l.take i = (l.take j).take i := by
    rw [List.take_take, Nat.min_eq_left h]
  rw [he]
  exact List.take_sublist _ _

/-- C2: within one run — with the queue sorted non-decreasing by time, one
profile per queue entry, and an external merge/report pipeline whose
branches-covered output cannot decrease when the merged prefix grows (the
claim's own premise: each checkpoint's merge set is a superset of the
previous one's) — the Coverage Sample sequence is monotonically
non-decreasing in adjusted elapsed time and in branches-covered, and each
checkpoint's merge invocation is a sub-list (in fact prefix) of every later
one's. -/
theorem sampler_monotone {P : Type} (report : List P → String)
    (profraw_files : List P) (queue_files : List (ℚ × String))
    (time_shift : ℚ)
    (hq : queue_files.Pairwise (fun a b => a.1 ≤ b.1))
    (hlen : profraw_files.length ≤ queue_files.length)
    (hmono : ∀ i j : Nat, i ≤ j →
      (parse_coverage_report (report (profraw_files.take i))).1 ≤
        (parse_coverage_report (report (profraw_files.take j))).1) :
    (get_cumulative_coverage report profraw_files queue_files
      time_shift).1.Pairwise (fun s t => s.1 ≤ t.1 ∧ s.2.1 ≤ t.2.1) ∧
    (get_cumulative_coverage report profraw_files queue_files
      time_shift).2.Pairwise (fun u v => List.Sublist u v) := by
  unfold get_cumulative_coverage
  split
  · simp
  · rename_i hne
    have hn : 1 ≤ profraw_files.length := by
      cases profraw_files with
      | nil => simp at hne
      | cons p ps => simp
    have hsp := samplePoints_pairwise_le profraw_files.length hn
    have hmem := samplePoints_mem_lt profraw_files.length hn
    have hstrong := pairwise_with_mem hsp hmem
    have hqt : ∀ {i j : Nat}, i ≤ j → i < profraw_files.length →
        j < profraw_files.length →
        (queue_files.getD i ((0 : ℚ), "")).1 ≤
          (queue_files.getD j ((0 : ℚ), "")).1 := by
      intro i j hij hi hj
      have hi' : i < queue_files.length := lt_of_lt_of_le hi hlen
      have hj' : j < queue_files.length := lt_of_lt_of_le hj hlen
      rw [List.getD_eq_getElem _ _ hi', List.getD_eq_getElem _ _ hj']
      rcases Nat.eq_or_lt_of_le hij with rfl | hlt
      · exact le_refl _
      · exact (List.pairwise_iff_getElem.mp hq i j hi' hj' hlt)
    constructor
    · rw [List.pairwise_map]
      refine hstrong.imp ?_
      rintro i j ⟨hij, hi, hj⟩
      refine ⟨clampTime_mono (by
        have := hqt hij hi hj
        linarith), hmono (i + 1) (j + 1) (by omega)⟩
    · rw [List.pairwise_map]
      refine hsp.imp ?_
      intro i j hij
      exact take_sublist_take _ (by omega)

/-- C2 witness: a two-profile run with queue times 1 and 2 and a constant
report; the sample list is monotone in time and coverage and the merge
trace grows. -/
theorem sampler_monotone_witness :
    (get_cumulative_coverage (fun _ => "") ([5, 7] : List Nat)
      [((1 : ℚ), "a"), ((2 : ℚ), "b")] 0).1.Pairwise
        (fun s t => s.1 ≤ t.1 ∧ s.2.1 ≤ t.2.1) ∧
    (get_cumulative_coverage (fun _ => "") ([5, 7] : List Nat)
      [((1 : ℚ), "a"), ((2 : ℚ), "b")] 0).2.Pairwise
        (fun u v => List.Sublist u v) :=
  sampler_monotone (fun _ => "") ([5, 7] : List Nat)
    [((1 : ℚ), "a"), ((2 : ℚ), "b")] 0
    (by norm_num [List.pairwise_cons])
    (by simp)
    (fun i j h => le_refl _)

/-! ### Claim C3 -/

/-- C3 counterexample: the filename `time:100` contains the
`time:<integer milliseconds>` token, yet the scanner returns no pair for it:
the glob keeps only entries whose name starts with `id:`, so the directory
`["time:100"]` scans to the empty sequence instead of containing
`(100 / 1000, "time:100")`. -/
theorem queue_scan_token_not_globbed :
    searchTime ("time:100".toList) = some 100 ∧
    parse_queue_files "q" (some ["time:100"]) = Except.ok [] := by
  constructor
  · decide
  · have hf : (["time:100"].filter (fun n => pyStartsWith n "id:")) = [] := rfl
    simp only [parse_queue_files, hf, List.mergeSort_nil, List.filterMap_nil]

/-- C3 (amended): for an existing directory the scanner returns, for every
entry whose filename both matches the glob `id:*` and contains a
`time:<integer milliseconds>` token, the pair `(ms / 1000, name)`; every
returned pair arises from such an entry (entries without the token, or not
matching the glob, are silently excluded); a missing directory fails with a
directory-not-found error. -/
theorem queue_scan_contract (queue_dir : String) (entries : List String) :
    (parse_queue_files queue_dir none
      = Except.error ("Queue directory not found: " ++ queue_dir)) ∧
    (∀ res, parse_queue_files queue_dir (some entries) = Except.ok res →
      (∀ n ∈ entries, pyStartsWith n "id:" = true →
        ∀ ms, searchTime n.toList = some ms → (((ms : ℚ) / 1000, n)) ∈ res) ∧
      (∀ p ∈ res, p.2 ∈ entries ∧ pyStartsWith p.2 "id:" = true ∧
        ∃ ms : Nat, searchTime p.2.toList = some ms ∧ p.1 = (ms : ℚ) / 1000)) := by
  refine ⟨rfl, ?_⟩
  intro res hres
  simp only [parse_queue_files] at hres
  injection hres with hres
  subst hres
  constructor
  · intro n hn hid ms hms
    rw [List.mem_mergeSort, List.mem_filterMap]
    refine ⟨n, ?_, by rw [hms]; rfl⟩
    rw [List.mem_mergeSort, List.mem_filter]
    exact ⟨hn, by rw [hid]⟩
  · intro p hp
    rw [List.mem_mergeSort, List.mem_filterMap] at hp
    obtain ⟨n, hn, hmap⟩ := hp
    rw [List.mem_mergeSort, List.mem_filter] at hn
    obtain ⟨ms, hms, hpe⟩ := Option.map_eq_some'.mp hmap
    subst hpe
    exact ⟨hn.1, by simpa using hn.2, ms, hms, rfl⟩

/-- C3 witness: the contract applied to the directory
`["id:000,time:2000", "junk"]`: parsing succeeds and the token-bearing
globbed entry appears with time `2000 / 1000`. -/
theorem queue_scan_contract_witness :
    ∃ res, parse_queue_files "q" (some ["id:000,time:2000", "junk"])
      = Except.ok res ∧ (((2000 : ℚ) / 1000, "id:000,time:2000")) ∈ res :=
  ⟨_, rfl, ((queue_scan_contract "q" ["id:000,time:2000", "junk"]).2 _ rfl).1
    "id:000,time:2000" (by decide) (by decide) 2000 (by decide)⟩

/-! ### Claim C4 -/

theorem pair_sublist_of_pairwise {α : Type} {R : α → α → Prop}
    (hasym : ∀ x y, R x y → ¬ R y x) :
    ∀ {l : List α}, l.Pairwise R → ∀ {a b}, a ∈ l → b ∈ l → R a b →
      List.Sublist [a, b] l := by
  intro l hl
  induction hl with
  | nil => intro a b ha _ _; simp at ha
  | cons hx _ ih =>
    intro a b ha hb hr
    rcases List.mem_cons.mp ha with rfl | ha'
    · rcases List.mem_cons.mp hb with rfl | hb'
      · exact absurd hr (hasym _ _ hr)
      · exact (List.singleton_sublist.mpr hb').cons₂ _
    · rcases List.mem_cons.mp hb with rfl | hb'
      · exact absurd (hx a ha') (hasym a b hr)
      · exact (ih ha' hb' hr).cons _

theorem sublist_pair_eq {α : Type} : ∀ {l : List α} {a b : α}, l.Nodup →
    List.Sublist [a, b] l → List.Sublist [b, a] l → a = b := by
  intro l
  induction l with
  | nil => intro a b _ h1 _; cases h1
  | cons x t ih =>
    intro a b hnd h1 h2
    rcases List.nodup_cons.mp hnd with ⟨hx, hndt⟩
    cases h1 with
    | cons _ h1' =>
      cases h2 with
      | cons _ h2' => exact ih hndt h1' h2'
      | cons₂ _ h2' => exact absurd (h1'.subset (by simp)) hx
    | cons₂ _ h1' =>
      cases h2 with
      | cons _ h2' => exact absurd (h2'.subset (by simp)) hx
      | cons₂ _ h2' => rfl

/-- C4: for any input ordering of an existing directory's (distinct) entry
names, the scanned sequence is sorted non-decreasing by parsed elapsed time,
and entries with equal parsed time appear in strictly ascending filename
order (the glob results are visited in sorted name order and the final sort
by time is stable). -/
theorem queue_sorted_stable (queue_dir : String) (entries : List String)
    (res : List (ℚ × String)) (hnd : entries.Nodup)
    (hok : parse_queue_files queue_dir (some entries) = Except.ok res) :
    res.Pairwise (fun a b => a.1 ≤ b.1 ∧ (a.1 = b.1 → a.2 < b.2)) := by
  simp only [parse_queue_files] at hok
  injection hok with hok
  subst hok
  set gl := (entries.filter (fun n => pyStartsWith n "id:")).mergeSort
    (fun a b => decide (a ≤ b)) with hgl
  set prs := gl.filterMap (fun n =>
    (searchTime n.toList).map (fun ms : Nat => ((ms : ℚ) / 1000, n))) with hprs
  have htransS : ∀ a b c : String, decide (a ≤ b) = true →
      decide (b ≤ c) = true → decide (a ≤ c) = true := fun a b c hab hbc =>
    decide_eq_true (le_trans (of_decide_eq_true hab) (of_decide_eq_true hbc))
  have htotalS : ∀ a b : String, (decide (a ≤ b) || decide (b ≤ a)) = true := by
    intro a b
    rcases le_total a b with h | h <;> simp [h]
  have htransT : ∀ a b c : ℚ × String, decide (a.1 ≤ b.1) = true →
      decide (b.1 ≤ c.1) = true → decide (a.1 ≤ c.1) = true :=
    fun a b c hab hbc =>
      decide_eq_true (le_trans (of_decide_eq_true hab) (of_decide_eq_true hbc))
  have htotalT : ∀ a b : ℚ × String,
      (decide (a.1 ≤ b.1) || decide (b.1 ≤ a.1)) = true := by
    intro a b
    rcases le_total a.1 b.1 with h | h <;> simp [h]
  have hgnd : gl.Nodup :=
    (List.mergeSort_perm _ _).nodup_iff.mpr (hnd.filter _)
  have hgle := List.sorted_mergeSort htransS htotalS
    (entries.filter (fun n => pyStartsWith n "id:"))
  have hglt : gl.Pairwise (fun a b : String => a < b) :=
    (hgle.and hgnd).imp
      (fun h => lt_of_le_of_ne (of_decide_eq_true h.1) h.2)
  have hsnd : ∀ (a : String) (c : ℚ × String),
      c ∈ ((searchTime a.toList).map (fun ms : Nat => ((ms : ℚ) / 1000, a))) →
        c.2 = a := by
    intro a c hc
    obtain ⟨ms, _, hc⟩ := Option.map_eq_some'.mp (Option.mem_def.mp hc)
    rw [← hc]
  have hpairs : prs.Pairwise (fun p q : ℚ × String => p.2 < q.2) := by
    rw [hprs]
    apply List.pairwise_filterMap.mpr
    refine hglt.imp ?_
    intro a b hab c hc d hd
    rw [hsnd a c hc, hsnd b d hd]
    exact hab
  have hpnd : prs.Nodup :=
    hpairs.imp (fun h heq => by rw [heq] at h; exact lt_irrefl _ h)
  have hrnd : (prs.mergeSort (fun a b => decide (a.1 ≤ b.1))).Nodup :=
    (List.mergeSort_perm _ _).nodup_iff.mpr hpnd
  have hrle : (prs.mergeSort (fun a b => decide (a.1 ≤ b.1))).Pairwise
      (fun a b : ℚ × String => a.1 ≤ b.1) :=
    (List.sorted_mergeSort htransT htotalT prs).imp
      (fun h => of_decide_eq_true h)
  have htie : (prs.mergeSort (fun a b => decide (a.1 ≤ b.1))).Pairwise
      (fun a b : ℚ × String => a.1 = b.1 → a.2 < b.2) := by
    apply List.pairwise_iff_forall_sublist.mpr
    intro a b hsub
    intro heq
    have hane : a ≠ b := by
      have hnd2 := List.Nodup.sublist hsub hrnd
      rcases List.nodup_cons.mp hnd2 with ⟨hna, -⟩
      simpa using hna
    have hnne : a.2 ≠ b.2 := by
      intro h2
      exact hane (Prod.ext heq h2)
    rcases lt_or_gt_of_ne hnne with hlt | hgt
    · exact hlt
    · exfalso
      have ha : a ∈ prs := List.mem_mergeSort.mp (hsub.subset (by simp))
      have hb : b ∈ prs := List.mem_mergeSort.mp (hsub.subset (by simp))
      have hba : List.Sublist [b, a] prs :=
        pair_sublist_of_pairwise (fun x y h => lt_asymm h) hpairs hb ha hgt
      have hba' : List.Sublist [b, a]
          (prs.mergeSort (fun a b => decide (a.1 ≤ b.1))) :=
        List.pair_sublist_mergeSort htransT htotalT (by simp [heq]) hba
      exact hane (sublist_pair_eq hrnd hsub hba')
  exact hrle.and htie

/-- C4 witness: the directory `["id:001,time:100", "id:000,time:500",
"id:002,time:100"]` — two entries tied at 100 ms and one at 500 ms — scans
to a sequence that is sorted by time with the tie in ascending filename
order. -/
theorem queue_sorted_stable_witness :
    ∃ res, parse_queue_files "q"
        (some ["id:001,time:100", "id:000,time:500", "id:002,time:100"])
      = Except.ok res ∧
      res.Pairwise (fun a b => a.1 ≤ b.1 ∧ (a.1 = b.1 → a.2 < b.2)) :=
  ⟨_, rfl, queue_sorted_stable "q"
    ["id:001,time:100", "id:000,time:500", "id:002,time:100"] _
    (by decide) rfl⟩
